import Mathlib

/-!
# Verification of the Tudat rotational-dynamics propagation core

This file gives a shallow embedding, over the real numbers, of the parts of the
Tudat repository that the specification describes:

* the rotational-ephemeris query surface (rotation quaternions and matrices,
  their analytic time derivatives, and angular-velocity vectors in either frame),
* the torque-free rigid-body dynamics used by the rotational propagator
  (quaternion kinematics and Euler's rotational equation) together with the
  closed-form single-axis-spin and free-precession solutions,
* the reference-frame transformation utilities
  (`referenceFrameTransformations.h`),
* the quaternion component-ordering convention
  (`getQuaternionObjectFromQuaternionValues`),
* the variable-step-size integrator step-acceptance state machine, and
* the `DeepSpaceManeuver` container (`deepSpaceManeuver.h`).

C++ `double` arithmetic is modelled by exact real arithmetic; `Eigen`
quaternions by `Quaternion ℝ`, `Eigen::Matrix3d` by `Matrix (Fin 3) (Fin 3) ℝ`,
`Eigen::Vector3d` by `Fin 3 → ℝ`, and nullable raw pointers by `Option`.
-/

namespace TudatSpec

open Real Matrix

noncomputable section

/-! ## Basic linear algebra: vectors, skew matrices, quaternions as rotations -/

/-- Cross product of two 3-vectors. -/
def crossProduct (u v : Fin 3 → ℝ) : Fin 3 → ℝ :=
  ![u 1 * v 2 - u 2 * v 1, u 2 * v 0 - u 0 * v 2, u 0 * v 1 - u 1 * v 0]

/-- The skew-symmetric cross-product matrix of a 3-vector, so that
`skewSymmetricMatrix v * w = v × w`. -/
def skewSymmetricMatrix (v : Fin 3 → ℝ) : Matrix (Fin 3) (Fin 3) ℝ :=
  !![0, -v 2, v 1;
     v 2, 0, -v 0;
     -v 1, v 0, 0]

/-- The pure (zero real part) quaternion with vector part `v`. -/
def pureQuaternion (v : Fin 3 → ℝ) : Quaternion ℝ := ⟨0, v 0, v 1, v 2⟩

/-- The vector (imaginary) part of a quaternion. -/
def vectorPart (q : Quaternion ℝ) : Fin 3 → ℝ := ![q.imI, q.imJ, q.imK]

/-- Rotation of a 3-vector by a (unit) quaternion, `q * (0, v) * q^*`; this is the
action `Vector_new = Quaternion * Vector_old` of an `Eigen::Quaterniond`. -/
def rotateVectorByQuaternion (q : Quaternion ℝ) (v : Fin 3 → ℝ) : Fin 3 → ℝ :=
  vectorPart (q * pureQuaternion v * star q)

/-- The squared norm of a quaternion, written out on components. -/
def qNormSq (q : Quaternion ℝ) : ℝ := q.re ^ 2 + q.imI ^ 2 + q.imJ ^ 2 + q.imK ^ 2

/-- The rotation matrix of a unit quaternion in the form used by
`Eigen::Quaterniond::toRotationMatrix` (valid when `qNormSq q = 1`). -/
def quaternionToRotationMatrix (q : Quaternion ℝ) : Matrix (Fin 3) (Fin 3) ℝ :=
  !![1 - 2 * (q.imJ ^ 2 + q.imK ^ 2), 2 * (q.imI * q.imJ - q.re * q.imK),
       2 * (q.imI * q.imK + q.re * q.imJ);
     2 * (q.imI * q.imJ + q.re * q.imK), 1 - 2 * (q.imI ^ 2 + q.imK ^ 2),
       2 * (q.imJ * q.imK - q.re * q.imI);
     2 * (q.imI * q.imK - q.re * q.imJ), 2 * (q.imJ * q.imK + q.re * q.imI),
       1 - 2 * (q.imI ^ 2 + q.imJ ^ 2)]

/-- The homogeneous (degree-two) form of the quaternion rotation matrix; it agrees
with `quaternionToRotationMatrix` on unit quaternions and satisfies polynomial
identities with no normalization hypothesis. -/
def homogeneousRotationMatrix (q : Quaternion ℝ) : Matrix (Fin 3) (Fin 3) ℝ :=
  !![q.re ^ 2 + q.imI ^ 2 - q.imJ ^ 2 - q.imK ^ 2, 2 * (q.imI * q.imJ - q.re * q.imK),
       2 * (q.imI * q.imK + q.re * q.imJ);
     2 * (q.imI * q.imJ + q.re * q.imK), q.re ^ 2 - q.imI ^ 2 + q.imJ ^ 2 - q.imK ^ 2,
       2 * (q.imJ * q.imK - q.re * q.imI);
     2 * (q.imI * q.imK - q.re * q.imJ), 2 * (q.imJ * q.imK + q.re * q.imI),
       q.re ^ 2 - q.imI ^ 2 - q.imJ ^ 2 + q.imK ^ 2]

/-- The unit quaternion of a rotation by angle `θ` about the body z-axis
(`Eigen::AngleAxisd θ UnitZ` as a quaternion). -/
def zRotationQuaternion (θ : ℝ) : Quaternion ℝ :=
  ⟨Real.cos (θ / 2), 0, 0, Real.sin (θ / 2)⟩

/-- The unit quaternion of a rotation by angle `θ` about the y-axis
(`Eigen::AngleAxisd θ UnitY` as a quaternion). -/
def yRotationQuaternion (θ : ℝ) : Quaternion ℝ :=
  ⟨Real.cos (θ / 2), 0, Real.sin (θ / 2), 0⟩

/-- The rotation matrix of a rotation by angle `θ` about the z-axis
(`Eigen::AngleAxisd θ UnitZ` as a matrix). -/
def zRotationMatrix (θ : ℝ) : Matrix (Fin 3) (Fin 3) ℝ :=
  !![Real.cos θ, -Real.sin θ, 0;
     Real.sin θ, Real.cos θ, 0;
     0, 0, 1]

/-! ## Rotational ephemeris query surface

The `RotationalEphemeris` implementation is not among the provided source files
(only its unit tests are), so it is modelled from the specification, §4.2. -/

/-- Modelled from the spec: a rotational ephemeris relates a base (inertial) frame
and a target (body-fixed) frame; it stores, as functions of the epoch, the
rotation-to-target-frame quaternion (the propagated quaternion, kept normalized)
and the angular velocity vector expressed in the target (body-fixed) frame.
The `RotationalEphemeris` class itself is missing from the sources. -/
structure RotationalEphemeris where
  rotationToTargetFrameFunction : ℝ → Quaternion ℝ
  bodyFixedAngularVelocityFunction : ℝ → Fin 3 → ℝ

/-- Modelled from the spec: `rotationToTargetFrame(t)`, the stored quaternion. -/
def getRotationToTargetFrame (e : RotationalEphemeris) (t : ℝ) : Quaternion ℝ :=
  e.rotationToTargetFrameFunction t

/-- Modelled from the spec: `rotationToBaseFrame(t)`, the conjugate (inverse) of
`rotationToTargetFrame(t)`. -/
def getRotationToBaseFrame (e : RotationalEphemeris) (t : ℝ) : Quaternion ℝ :=
  star (getRotationToTargetFrame e t)

/-- Modelled from the spec: the rotation-to-target-frame quaternion as a rotation
matrix (`.toRotationMatrix()` in the tests). -/
def getRotationMatrixToTargetFrame (e : RotationalEphemeris) (t : ℝ) :
    Matrix (Fin 3) (Fin 3) ℝ :=
  quaternionToRotationMatrix (getRotationToTargetFrame e t)

/-- Modelled from the spec: the rotation-to-base-frame quaternion as a rotation
matrix. -/
def getRotationMatrixToBaseFrame (e : RotationalEphemeris) (t : ℝ) :
    Matrix (Fin 3) (Fin 3) ℝ :=
  quaternionToRotationMatrix (getRotationToBaseFrame e t)

/-- Modelled from the spec: `rotationalVelocityVectorInTargetFrame(t)` is the
stored body-fixed angular velocity. -/
def getRotationalVelocityVectorInTargetFrame (e : RotationalEphemeris) (t : ℝ) :
    Fin 3 → ℝ :=
  e.bodyFixedAngularVelocityFunction t

/-- Modelled from the spec: `rotationalVelocityVectorInBaseFrame(t)` is the
rotation-to-base-frame quaternion applied to the target-frame angular velocity. -/
def getRotationalVelocityVectorInBaseFrame (e : RotationalEphemeris) (t : ℝ) :
    Fin 3 → ℝ :=
  rotateVectorByQuaternion (getRotationToBaseFrame e t)
    (getRotationalVelocityVectorInTargetFrame e t)

/-- Modelled from the spec: `derivativeOfRotationToBaseFrame(t)` computed
analytically from quaternion kinematics, `dR/dt = R · [ω]×` with `ω` the
body-frame angular velocity — not by finite differencing. -/
def getDerivativeOfRotationToBaseFrame (e : RotationalEphemeris) (t : ℝ) :
    Matrix (Fin 3) (Fin 3) ℝ :=
  getRotationMatrixToBaseFrame e t *
    skewSymmetricMatrix (getRotationalVelocityVectorInTargetFrame e t)

/-- Modelled from the spec: `derivativeOfRotationToTargetFrame(t)` computed
analytically, `dR_target/dt = −[ω]× · R_target`. -/
def getDerivativeOfRotationToTargetFrame (e : RotationalEphemeris) (t : ℝ) :
    Matrix (Fin 3) (Fin 3) ℝ :=
  (-skewSymmetricMatrix (getRotationalVelocityVectorInTargetFrame e t)) *
    getRotationMatrixToTargetFrame e t

/-- Modelled from the spec: skew-extraction of the base-frame angular velocity
from the rotation-to-target-frame matrix and the derivative of the
rotation-to-base-frame matrix, `ω_base = vec(dR_to_base/dt · R_to_target(t))`.
This is `getRotationalVelocityVectorInBaseFrameFromMatrices` in the tests; the
implementation is missing from the sources. -/
def getRotationalVelocityVectorInBaseFrameFromMatrices
    (rotationToTargetFrame rotationMatrixToGlobalFrameDerivative :
      Matrix (Fin 3) (Fin 3) ℝ) : Fin 3 → ℝ :=
  let crossProductMatrix := rotationMatrixToGlobalFrameDerivative * rotationToTargetFrame
  ![crossProductMatrix 2 1, crossProductMatrix 0 2, crossProductMatrix 1 0]

/-! ## Torque-free rotational dynamics and closed-form solutions

The state-derivative model and propagator are not among the provided source
files; they are modelled from the specification, §4.3, and the unit-test
scenarios (`getTestBodyMap`, `testSimpleRotationalDynamicsPropagation`,
`testSimpleRotationalDynamicsPropagationWithObliquity`). -/

/-- Modelled from the spec: the quaternion-kinematics time derivative
`dq/dt = ½ · q ⊗ (0, ω)` of the rotation-to-base-frame quaternion, with `ω` the
body-frame angular velocity. -/
def quaternionDerivative (q : Quaternion ℝ) (ω : Fin 3 → ℝ) : Quaternion ℝ :=
  ((1 : ℝ) / 2) • (q * pureQuaternion ω)

/-- The inertia-tensor scale factor of the Phobos test body,
`11.27E3 * 11.27E3 * 1.0659E16` (from `getTestBodyMap`). -/
def phobosInertiaScale : ℝ := 11.27e3 * 11.27e3 * 1.0659e16

/-- The inertia tensor of the Phobos test body: principal moments in ratio
`{0.3615, 0.4265, 0.5024}` times the common scale (from `getTestBodyMap`). -/
def phobosInertiaTensor : Matrix (Fin 3) (Fin 3) ℝ :=
  phobosInertiaScale • !![0.3615, 0, 0; 0, 0.4265, 0; 0, 0, 0.5024]

/-- The axis-symmetric (symmetric-equator) variant of the Phobos inertia tensor,
with the x moment set equal to the y moment (from `getTestBodyMap` with
`useSymmetricEquator` true). -/
def symmetricPhobosInertiaTensor : Matrix (Fin 3) (Fin 3) ℝ :=
  phobosInertiaScale • !![0.4265, 0, 0; 0, 0.4265, 0; 0, 0, 0.5024]

/-- The rotation-to-base-frame quaternion of the closed-form single-axis-spin
solution: the initial rotation `q₀` composed with a steady rotation about the
body z-axis at rate `n` since the initial epoch `t₀`. -/
def spinStateQuaternion (q₀ : Quaternion ℝ) (n t₀ t : ℝ) : Quaternion ℝ :=
  q₀ * zRotationQuaternion (n * (t - t₀))

/-- The body-fixed angular velocity of the single-axis-spin solution: constant
spin at rate `n` about the body z-axis. -/
def spinAngularVelocity (n : ℝ) : Fin 3 → ℝ := ![0, 0, n]

/-- Modelled from the spec: the rotational ephemeris produced by propagating the
torque-free single-axis-spin scenario — the stored rotation-to-target-frame
quaternion is the conjugate of the closed-form rotation-to-base-frame
quaternion, and the stored body-fixed angular velocity is the constant spin. -/
def spinEphemeris (q₀ : Quaternion ℝ) (n t₀ : ℝ) : RotationalEphemeris where
  rotationToTargetFrameFunction := fun t => star (spinStateQuaternion q₀ n t₀ t)
  bodyFixedAngularVelocityFunction := fun _ => spinAngularVelocity n

/-- The Euler free-precession frequency `(I₃ − I₂)/I₂ · spin-rate` for the
axis-symmetric Phobos inertia ratios (from
`testSimpleRotationalDynamicsPropagationWithObliquity`). -/
def eulerFrequency (meanMotion : ℝ) : ℝ := (0.5024 - 0.4265) / 0.4265 * meanMotion

/-- The body-fixed angular velocity of the closed-form free-precession solution:
the two non-spin components trace a sinusoid of amplitude `a` at the Euler
frequency `λ`, while the z component stays at the spin rate `n`. -/
def precessionAngularVelocity (a lam n t₀ t : ℝ) : Fin 3 → ℝ :=
  ![a * Real.cos (lam * (t - t₀)), a * Real.sin (lam * (t - t₀)), n]

/-- The time derivative of `precessionAngularVelocity`. -/
def precessionAngularVelocityDerivative (a lam t₀ t : ℝ) : Fin 3 → ℝ :=
  ![-(a * lam * Real.sin (lam * (t - t₀))), a * lam * Real.cos (lam * (t - t₀)), 0]

/-- A concrete rotational ephemeris used to witness the ephemeris theorems on
explicit inputs: constant unit attitude quaternion `(½, ½, ½, ½)` and constant
body-fixed angular velocity `(1, 2, 3)`. -/
def exampleRotationalEphemeris : RotationalEphemeris where
  rotationToTargetFrameFunction := fun _ => ⟨1 / 2, 1 / 2, 1 / 2, 1 / 2⟩
  bodyFixedAngularVelocityFunction := fun _ => ![1, 2, 3]

/-! ## Reference frame transformations

Only the declarations and documentation of `referenceFrameTransformations.h` are
among the provided sources; the function bodies are modelled from the
specification, §4.1. -/

/-- Modelled from the spec: rotating planetocentric (R) to inertial (I) frame
transformation matrix for the rotation angle `angleFromXItoXR` about the polar
(z) axis; the implementation is missing from the sources. -/
def getRotatingPlanetocentricToInertialFrameTransformationMatrix
    (angleFromXItoXR : ℝ) : Matrix (Fin 3) (Fin 3) ℝ :=
  !![Real.cos angleFromXItoXR, -Real.sin angleFromXItoXR, 0;
     Real.sin angleFromXItoXR, Real.cos angleFromXItoXR, 0;
     0, 0, 1]

/-- Modelled from the spec: inertial (I) to rotating planetocentric (R) frame
transformation matrix for the rotation angle `angleFromXItoXR` about the polar
(z) axis; the implementation is missing from the sources. -/
def getInertialToPlanetocentricFrameTransformationMatrix
    (angleFromXItoXR : ℝ) : Matrix (Fin 3) (Fin 3) ℝ :=
  !![Real.cos angleFromXItoXR, Real.sin angleFromXItoXR, 0;
     -Real.sin angleFromXItoXR, Real.cos angleFromXItoXR, 0;
     0, 0, 1]

/-- Modelled from the spec: local vertical (V) to rotating planetocentric (R)
frame transformation quaternion for a given longitude and latitude, composed
from elementary rotations about the z and y axes; the implementation is missing
from the sources. -/
def getLocalVerticalToRotatingPlanetocentricFrameTransformationQuaternion
    (longitude latitude : ℝ) : Quaternion ℝ :=
  zRotationQuaternion (-longitude) * yRotationQuaternion (Real.pi / 2 + latitude)

/-- Modelled from the spec: rotating planetocentric (R) to local vertical (V)
frame transformation quaternion, the reverse chain of elementary rotations with
negated angles; the implementation is missing from the sources. -/
def getRotatingPlanetocentricToLocalVerticalFrameTransformationQuaternion
    (longitude latitude : ℝ) : Quaternion ℝ :=
  yRotationQuaternion (-(Real.pi / 2 + latitude)) * zRotationQuaternion longitude

/-! ## Quaternion component ordering (`getQuaternionObjectFromQuaternionValues`)

Only the declaration and documentation are among the provided sources; the body
is modelled from the specification and the header documentation. -/

/-- An `Eigen::Quaterniond` as it is stored internally: four coefficients in the
storage order `[x, y, z, w]` (the real part is stored last). -/
structure EigenQuaterniond where
  storage : Fin 4 → ℝ

/-- The real part `w` of an `Eigen::Quaterniond` (stored at index 3). -/
def EigenQuaterniond.w (q : EigenQuaterniond) : ℝ := q.storage 3

/-- The `x` component of an `Eigen::Quaterniond` (stored at index 0). -/
def EigenQuaterniond.x (q : EigenQuaterniond) : ℝ := q.storage 0

/-- The `y` component of an `Eigen::Quaterniond` (stored at index 1). -/
def EigenQuaterniond.y (q : EigenQuaterniond) : ℝ := q.storage 1

/-- The `z` component of an `Eigen::Quaterniond` (stored at index 2). -/
def EigenQuaterniond.z (q : EigenQuaterniond) : ℝ := q.storage 2

/-- The four-scalar `Eigen::Quaterniond` constructor: the real `w` coefficient is
passed first, while internally the coefficients are stored as `[x, y, z, w]`. -/
def quaterniondFromFourValues (w x y z : ℝ) : EigenQuaterniond :=
  ⟨![x, y, z, w]⟩

/-- Constructing an `Eigen::Quaterniond` directly from a `Vector4d`: Eigen copies
the coefficients in internal storage order, so the entries are reinterpreted as
`[x, y, z, w]` regardless of what the caller meant by them. -/
def quaterniondFromCoefficientVector (v : Fin 4 → ℝ) : EigenQuaterniond :=
  ⟨v⟩

/-- Modelled from the spec: `getQuaternionObjectFromQuaternionValues` retrieves
the individual entries of the public `(w, x, y, z)`-ordered 4-vector and passes
them as four scalars to the `Eigen::Quaterniond` constructor, real part first;
the implementation is missing from the sources. -/
def getQuaternionObjectFromQuaternionValues (vectorWithQuaternion : Fin 4 → ℝ) :
    EigenQuaterniond :=
  quaterniondFromFourValues (vectorWithQuaternion 0) (vectorWithQuaternion 1)
    (vectorWithQuaternion 2) (vectorWithQuaternion 3)

/-! ## Variable-step integrator step control

The integrator implementation is not among the provided source files; the
step-acceptance state machine is modelled from the specification, §4.4. -/

/-- Modelled from the spec: the step-size bounds of the variable-step integrator
settings; the integrator implementation is missing from the sources. -/
structure VariableStepIntegratorSettings where
  minimumStepSize : ℝ
  maximumStepSize : ℝ

/-- Modelled from the spec: the integrator state between step attempts — the last
successfully accepted epoch and state, and the step size to attempt. -/
structure VariableStepIntegratorState (S : Type) where
  lastAcceptedTime : ℝ
  lastAcceptedState : S
  currentStepSize : ℝ

/-- Modelled from the spec: the outcome of one attempt of the variable-step
integrator — the step is accepted (advancing time and proposing a clipped next
step size), rejected (to be retried with the reduced step size), or the
propagation aborts fatally on step-size underflow, reporting the last
successfully accepted epoch and state. -/
inductive IntegrationStepOutcome (S : Type) where
  | stepAccepted (newTime : ℝ) (newState : S) (nextStepSize : ℝ)
  | stepRejected (reducedStepSize : ℝ)
  | stepSizeUnderflowError (lastAcceptedTime : ℝ) (lastAcceptedState : S)

/-- Modelled from the spec: one attempt of the variable-step integrator. The
embedded-pair error norm `errorNorm` is compared against one: if it passes, the
step is accepted, time advances, and the recommended next step size
`recommendedStepSize` is clipped to the configured bounds; if it fails and the
recommended (shrunk) step size underflows the minimum step, the propagation
aborts fatally rather than clamping the step; otherwise the step is rejected
and retried with the shrunk step size. -/
def performVariableStepSizeStep {S : Type}
    (settings : VariableStepIntegratorSettings)
    (stepFunction : ℝ → S → ℝ → S)
    (errorNorm recommendedStepSize : ℝ)
    (state : VariableStepIntegratorState S) : IntegrationStepOutcome S :=
  if errorNorm ≤ 1 then
    .stepAccepted (state.lastAcceptedTime + state.currentStepSize)
      (stepFunction state.lastAcceptedTime state.lastAcceptedState state.currentStepSize)
      (min (max recommendedStepSize settings.minimumStepSize) settings.maximumStepSize)
  else if recommendedStepSize < settings.minimumStepSize then
    .stepSizeUnderflowError state.lastAcceptedTime state.lastAcceptedState
  else
    .stepRejected recommendedStepSize

/-! ## `DeepSpaceManeuver` (`deepSpaceManeuver.h`)

This class is fully present in the sources and is embedded directly; the
`State*` raw pointer is modelled as `Option State` over an arbitrary `State`
type, with `NULL` as `none`. -/

/-- The `DeepSpaceManeuver` class: a delta-V, an event time, and a nullable
pointer to the state at the event. -/
structure DeepSpaceManeuver (State : Type) where
  deltaV_ : ℝ
  timeOfDeepSpaceManeuver_ : ℝ
  pointerToState_ : Option State

/-- The default constructor `DeepSpaceManeuver()`: `deltaV_( -1.0 )`,
`timeOfDeepSpaceManeuver_( 0.0 )`, `pointerToState_( NULL )`. -/
def defaultDeepSpaceManeuver (State : Type) : DeepSpaceManeuver State :=
  ⟨-1.0, 0.0, none⟩

/-- `setTime`: sets the time of the deep space maneuver event. -/
def DeepSpaceManeuver.setTime {State : Type} (m : DeepSpaceManeuver State)
    (timeOfDeepSpaceManeuver : ℝ) : DeepSpaceManeuver State :=
  { m with timeOfDeepSpaceManeuver_ := timeOfDeepSpaceManeuver }

/-- `setState`: sets the pointer to the state at the deep space maneuver event. -/
def DeepSpaceManeuver.setState {State : Type} (m : DeepSpaceManeuver State)
    (pointerToState : Option State) : DeepSpaceManeuver State :=
  { m with pointerToState_ := pointerToState }

/-- `setDeltaV`: sets the delta-V of the deep space maneuver event. -/
def DeepSpaceManeuver.setDeltaV {State : Type} (m : DeepSpaceManeuver State)
    (deltaV : ℝ) : DeepSpaceManeuver State :=
  { m with deltaV_ := deltaV }

/-- `getTime`: returns the time of the deep space maneuver event. -/
def DeepSpaceManeuver.getTime {State : Type} (m : DeepSpaceManeuver State) : ℝ :=
  m.timeOfDeepSpaceManeuver_

/-- `getState`: returns the pointer to the state at the deep space maneuver
event. -/
def DeepSpaceManeuver.getState {State : Type} (m : DeepSpaceManeuver State) :
    Option State :=
  m.pointerToState_

/-- `getDeltaV`: returns the delta-V of the deep space maneuver event. -/
def DeepSpaceManeuver.getDeltaV {State : Type} (m : DeepSpaceManeuver State) : ℝ :=
  m.deltaV_

/-! ## Helper lemmas on quaternions and rotation matrices -/

theorem qNormSq_mul (p q : Quaternion ℝ) :
    qNormSq (p * q) = qNormSq p * qNormSq q := by
  simp only [qNormSq, Quaternion.mul_re, Quaternion.mul_imI, Quaternion.mul_imJ,
    Quaternion.mul_imK]
  ring

theorem qNormSq_star (q : Quaternion ℝ) : qNormSq (star q) = qNormSq q := by
  simp only [qNormSq, Quaternion.star_re, Quaternion.star_imI, Quaternion.star_imJ,
    Quaternion.star_imK]
  ring

theorem qNormSq_zRotationQuaternion (θ : ℝ) : qNormSq (zRotationQuaternion θ) = 1 := by
  simp only [qNormSq, zRotationQuaternion]
  have h := Real.sin_sq_add_cos_sq (θ / 2)
  linear_combination h

theorem qNormSq_yRotationQuaternion (θ : ℝ) : qNormSq (yRotationQuaternion θ) = 1 := by
  simp only [qNormSq, yRotationQuaternion]
  have h := Real.sin_sq_add_cos_sq (θ / 2)
  linear_combination h

theorem mul_star_eq_one_of_unit (q : Quaternion ℝ) (h : qNormSq q = 1) :
    q * star q = 1 := by
  simp only [qNormSq] at h
  apply Quaternion.ext <;>
    simp only [Quaternion.mul_re, Quaternion.mul_imI, Quaternion.mul_imJ, Quaternion.mul_imK,
      Quaternion.star_re, Quaternion.star_imI, Quaternion.star_imJ, Quaternion.star_imK,
      Quaternion.one_re, Quaternion.one_imI, Quaternion.one_imJ, Quaternion.one_imK] <;>
    first
      | linear_combination h
      | ring

theorem star_mul_eq_one_of_unit (q : Quaternion ℝ) (h : qNormSq q = 1) :
    star q * q = 1 := by
  have h' : qNormSq (star q) = 1 := by rw [qNormSq_star]; exact h
  have := mul_star_eq_one_of_unit (star q) h'
  rwa [star_star] at this

theorem star_zRotationQuaternion (θ : ℝ) :
    star (zRotationQuaternion θ) = zRotationQuaternion (-θ) := by
  apply Quaternion.ext <;>
    simp [zRotationQuaternion, neg_div, Real.cos_neg, Real.sin_neg]

theorem star_yRotationQuaternion (θ : ℝ) :
    star (yRotationQuaternion θ) = yRotationQuaternion (-θ) := by
  apply Quaternion.ext <;>
    simp [yRotationQuaternion, neg_div, Real.cos_neg, Real.sin_neg]

/-! ## Claim C7: to-X / from-X transformation pairs are exact inverses -/

/-- C7: Each to-X / from-X reference-frame transformation pair is a pair of
exact inverses: the planetocentric-to-inertial matrix is the transpose of the
inertial-to-planetocentric matrix (and both products are the identity), and the
planetocentric-to-local-vertical quaternion is the conjugate of the
local-vertical-to-planetocentric quaternion (and both products are one). -/
theorem frame_transformation_pairs_are_exact_inverses
    (angleFromXItoXR longitude latitude : ℝ) :
    getRotatingPlanetocentricToInertialFrameTransformationMatrix angleFromXItoXR =
      (getInertialToPlanetocentricFrameTransformationMatrix angleFromXItoXR)ᵀ ∧
    getRotatingPlanetocentricToInertialFrameTransformationMatrix angleFromXItoXR *
      getInertialToPlanetocentricFrameTransformationMatrix angleFromXItoXR = 1 ∧
    getInertialToPlanetocentricFrameTransformationMatrix angleFromXItoXR *
      getRotatingPlanetocentricToInertialFrameTransformationMatrix angleFromXItoXR = 1 ∧
    getRotatingPlanetocentricToLocalVerticalFrameTransformationQuaternion
        longitude latitude =
      star (getLocalVerticalToRotatingPlanetocentricFrameTransformationQuaternion
        longitude latitude) ∧
    getRotatingPlanetocentricToLocalVerticalFrameTransformationQuaternion
        longitude latitude *
      getLocalVerticalToRotatingPlanetocentricFrameTransformationQuaternion
        longitude latitude = 1 ∧
    getLocalVerticalToRotatingPlanetocentricFrameTransformationQuaternion
        longitude latitude *
      getRotatingPlanetocentricToLocalVerticalFrameTransformationQuaternion
        longitude latitude = 1 := by
  have hstar : getRotatingPlanetocentricToLocalVerticalFrameTransformationQuaternion
      longitude latitude =
      star (getLocalVerticalToRotatingPlanetocentricFrameTransformationQuaternion
        longitude latitude) := by
    rw [getLocalVerticalToRotatingPlanetocentricFrameTransformationQuaternion,
      StarMul.star_mul, star_zRotationQuaternion, star_yRotationQuaternion, neg_neg,
      getRotatingPlanetocentricToLocalVerticalFrameTransformationQuaternion]
  have hunit : qNormSq (getLocalVerticalToRotatingPlanetocentricFrameTransformationQuaternion
      longitude latitude) = 1 := by
    rw [getLocalVerticalToRotatingPlanetocentricFrameTransformationQuaternion, qNormSq_mul,
      qNormSq_zRotationQuaternion, qNormSq_yRotationQuaternion, one_mul]
  refine ⟨?_, ?_, ?_, hstar, ?_, ?_⟩
  · ext i j
    rw [Matrix.transpose_apply]
    fin_cases i <;> fin_cases j <;>
      simp [getRotatingPlanetocentricToInertialFrameTransformationMatrix,
        getInertialToPlanetocentricFrameTransformationMatrix]
  · ext i j
    fin_cases i <;> fin_cases j <;>
      simp [getRotatingPlanetocentricToInertialFrameTransformationMatrix,
        getInertialToPlanetocentricFrameTransformationMatrix, Matrix.mul_apply,
        Fin.sum_univ_three, Matrix.one_apply] <;>
      first
        | linear_combination Real.sin_sq_add_cos_sq angleFromXItoXR
        | ring
  · ext i j
    fin_cases i <;> fin_cases j <;>
      simp [getRotatingPlanetocentricToInertialFrameTransformationMatrix,
        getInertialToPlanetocentricFrameTransformationMatrix, Matrix.mul_apply,
        Fin.sum_univ_three, Matrix.one_apply] <;>
      first
        | linear_combination Real.sin_sq_add_cos_sq angleFromXItoXR
        | ring
  · rw [hstar]
    exact star_mul_eq_one_of_unit _ hunit
  · rw [hstar]
    exact mul_star_eq_one_of_unit _ hunit

/-! ## Claim C2: rotation-to-target and rotation-to-base quaternions are mutual
inverses -/

/-- C2: At every epoch at which the stored quaternion is normalized, the
quaternions returned by `rotationToTargetFrame(t)` and `rotationToBaseFrame(t)`
are mutual inverses (both products are one), and `rotationToBaseFrame(t)`
matches the conjugate of `rotationToTargetFrame(t)` componentwise within
`1e-10`. -/
theorem rotation_to_target_and_base_frames_mutual_inverses
    (e : RotationalEphemeris) (t : ℝ)
    (hunit : qNormSq (getRotationToTargetFrame e t) = 1) :
    getRotationToTargetFrame e t * getRotationToBaseFrame e t = 1 ∧
    getRotationToBaseFrame e t * getRotationToTargetFrame e t = 1 ∧
    |(getRotationToBaseFrame e t).re - (star (getRotationToTargetFrame e t)).re| ≤ 1e-10 ∧
    |(getRotationToBaseFrame e t).imI - (star (getRotationToTargetFrame e t)).imI| ≤ 1e-10 ∧
    |(getRotationToBaseFrame e t).imJ - (star (getRotationToTargetFrame e t)).imJ| ≤ 1e-10 ∧
    |(getRotationToBaseFrame e t).imK - (star (getRotationToTargetFrame e t)).imK| ≤ 1e-10 := by
  refine ⟨mul_star_eq_one_of_unit _ hunit, star_mul_eq_one_of_unit _ hunit, ?_, ?_, ?_, ?_⟩ <;>
    rw [getRotationToBaseFrame] <;> norm_num

/-- Witness for C2 at the concrete example ephemeris with stored quaternion
`(½, ½, ½, ½)` and epoch `0`. -/
theorem rotation_to_target_and_base_frames_mutual_inverses_witness :
    qNormSq (getRotationToTargetFrame exampleRotationalEphemeris 0) = 1 ∧
    getRotationToTargetFrame exampleRotationalEphemeris 0 *
      getRotationToBaseFrame exampleRotationalEphemeris 0 = 1 := by
  have hunit : qNormSq (getRotationToTargetFrame exampleRotationalEphemeris 0) = 1 := by
    norm_num [qNormSq, getRotationToTargetFrame, exampleRotationalEphemeris]
  exact ⟨hunit,
    (rotation_to_target_and_base_frames_mutual_inverses exampleRotationalEphemeris 0 hunit).1⟩

theorem homogeneousRotationMatrix_mul (p q : Quaternion ℝ) :
    homogeneousRotationMatrix (p * q) =
      homogeneousRotationMatrix p * homogeneousRotationMatrix q := by
  ext i j
  fin_cases i <;> fin_cases j <;>
    simp [homogeneousRotationMatrix, Matrix.mul_apply, Fin.sum_univ_three,
      Quaternion.mul_re, Quaternion.mul_imI, Quaternion.mul_imJ, Quaternion.mul_imK] <;>
    ring

theorem homogeneousRotationMatrix_star (q : Quaternion ℝ) :
    homogeneousRotationMatrix (star q) = (homogeneousRotationMatrix q)ᵀ := by
  ext i j
  rw [Matrix.transpose_apply]
  fin_cases i <;> fin_cases j <;>
    simp [homogeneousRotationMatrix] <;> ring

theorem rotateVectorByQuaternion_eq_hom_mulVec (q : Quaternion ℝ) (v : Fin 3 → ℝ) :
    rotateVectorByQuaternion q v = (homogeneousRotationMatrix q).mulVec v := by
  funext i
  fin_cases i <;>
    simp [rotateVectorByQuaternion, vectorPart, pureQuaternion, homogeneousRotationMatrix,
      Matrix.mulVec, Matrix.dotProduct, Fin.sum_univ_three,
      Quaternion.mul_re, Quaternion.mul_imI, Quaternion.mul_imJ, Quaternion.mul_imK] <;>
    ring

theorem hom_skew_conj (q : Quaternion ℝ) (v : Fin 3 → ℝ) (i : Fin 3) :
    (homogeneousRotationMatrix q * skewSymmetricMatrix v * homogeneousRotationMatrix (star q))
        (![2, 0, 1] i) (![1, 2, 0] i) =
      qNormSq q * (homogeneousRotationMatrix q).mulVec v i := by
  fin_cases i <;>
    simp [homogeneousRotationMatrix, skewSymmetricMatrix, qNormSq, Matrix.mul_apply,
      Matrix.mulVec, Matrix.dotProduct, Fin.sum_univ_three] <;>
    ring

theorem quaternionToRotationMatrix_eq_hom (q : Quaternion ℝ) (h : qNormSq q = 1) :
    quaternionToRotationMatrix q = homogeneousRotationMatrix q := by
  simp only [qNormSq] at h
  ext i j
  fin_cases i <;> fin_cases j <;>
    simp [quaternionToRotationMatrix, homogeneousRotationMatrix] <;>
    linear_combination -h

theorem skew_extraction_eq (p : Quaternion ℝ) (ω : Fin 3 → ℝ) (h : qNormSq p = 1)
    (i : Fin 3) :
    getRotationalVelocityVectorInBaseFrameFromMatrices
        (quaternionToRotationMatrix (star p))
        (quaternionToRotationMatrix p * skewSymmetricMatrix ω) i =
      (quaternionToRotationMatrix p).mulVec ω i := by
  have hs : qNormSq (star p) = 1 := by rw [qNormSq_star]; exact h
  rw [quaternionToRotationMatrix_eq_hom p h, quaternionToRotationMatrix_eq_hom _ hs]
  have hvec : getRotationalVelocityVectorInBaseFrameFromMatrices
      (homogeneousRotationMatrix (star p))
      (homogeneousRotationMatrix p * skewSymmetricMatrix ω) i =
      (homogeneousRotationMatrix p * skewSymmetricMatrix ω *
        homogeneousRotationMatrix (star p)) (![2, 0, 1] i) (![1, 2, 0] i) := by
    fin_cases i <;> rfl
  rw [hvec, hom_skew_conj p ω i, h, one_mul]

theorem zRotationQuaternion_zero : zRotationQuaternion 0 = 1 := by
  apply Quaternion.ext <;> simp [zRotationQuaternion]

theorem quaternionToRotationMatrix_zRotation (θ : ℝ) :
    quaternionToRotationMatrix (zRotationQuaternion θ) = zRotationMatrix θ := by
  have h2 : (2 : ℝ) * (θ / 2) = θ := by ring
  have hc : Real.cos θ = Real.cos (θ / 2) ^ 2 - Real.sin (θ / 2) ^ 2 := by
    conv_lhs => rw [← h2]
    rw [Real.cos_two_mul']
  have hs : Real.sin θ = 2 * Real.sin (θ / 2) * Real.cos (θ / 2) := by
    conv_lhs => rw [← h2]
    rw [Real.sin_two_mul]
  have hp := Real.sin_sq_add_cos_sq (θ / 2)
  ext i j
  fin_cases i <;> fin_cases j <;>
    simp [quaternionToRotationMatrix, zRotationQuaternion, zRotationMatrix] <;>
    first
      | linear_combination -hc - hp
      | linear_combination hs
      | linear_combination -hs

theorem qNormSq_spinStateQuaternion (q₀ : Quaternion ℝ) (n t₀ t : ℝ)
    (h : qNormSq q₀ = 1) : qNormSq (spinStateQuaternion q₀ n t₀ t) = 1 := by
  rw [spinStateQuaternion, qNormSq_mul, h, qNormSq_zRotationQuaternion, one_mul]

theorem spin_rotation_matrix_to_base (q₀ : Quaternion ℝ) (n t₀ t : ℝ)
    (h : qNormSq q₀ = 1) :
    getRotationMatrixToBaseFrame (spinEphemeris q₀ n t₀) t =
      quaternionToRotationMatrix q₀ * zRotationMatrix (n * (t - t₀)) := by
  have hz : qNormSq (zRotationQuaternion (n * (t - t₀))) = 1 :=
    qNormSq_zRotationQuaternion _
  have hprod : qNormSq (q₀ * zRotationQuaternion (n * (t - t₀))) = 1 := by
    rw [qNormSq_mul, h, hz, one_mul]
  show quaternionToRotationMatrix
      (star (star (spinStateQuaternion q₀ n t₀ t))) = _
  rw [star_star, spinStateQuaternion, quaternionToRotationMatrix_eq_hom _ hprod,
    homogeneousRotationMatrix_mul, ← quaternionToRotationMatrix_eq_hom q₀ h,
    ← quaternionToRotationMatrix_eq_hom _ hz, quaternionToRotationMatrix_zRotation]

theorem spin_rotation_matrix_to_target (q₀ : Quaternion ℝ) (n t₀ t : ℝ)
    (h : qNormSq q₀ = 1) :
    getRotationMatrixToTargetFrame (spinEphemeris q₀ n t₀) t =
      zRotationMatrix (-(n * (t - t₀))) *
        getRotationMatrixToTargetFrame (spinEphemeris q₀ n t₀) t₀ := by
  have hz : qNormSq (zRotationQuaternion (-(n * (t - t₀)))) = 1 :=
    qNormSq_zRotationQuaternion _
  have hs0 : qNormSq (star q₀) = 1 := by rw [qNormSq_star]; exact h
  have hst : qNormSq (star (spinStateQuaternion q₀ n t₀ t)) = 1 := by
    rw [qNormSq_star]; exact qNormSq_spinStateQuaternion q₀ n t₀ t h
  have htgt0 : getRotationMatrixToTargetFrame (spinEphemeris q₀ n t₀) t₀ =
      quaternionToRotationMatrix (star q₀) := by
    show quaternionToRotationMatrix (star (spinStateQuaternion q₀ n t₀ t₀)) = _
    rw [spinStateQuaternion, sub_self, mul_zero, zRotationQuaternion_zero, mul_one]
  rw [htgt0]
  show quaternionToRotationMatrix (star (spinStateQuaternion q₀ n t₀ t)) = _
  rw [quaternionToRotationMatrix_eq_hom _ hst, spinStateQuaternion, StarMul.star_mul,
    star_zRotationQuaternion, homogeneousRotationMatrix_mul,
    ← quaternionToRotationMatrix_eq_hom _ hz, ← quaternionToRotationMatrix_eq_hom _ hs0,
    quaternionToRotationMatrix_zRotation]

theorem hasDerivAt_trig_combination (a b n t₀ t : ℝ) :
    HasDerivAt
      (fun s => a * Real.cos (n * (s - t₀) / 2) + b * Real.sin (n * (s - t₀) / 2))
      (-(a * Real.sin (n * (t - t₀) / 2) * (n / 2)) +
        b * Real.cos (n * (t - t₀) / 2) * (n / 2)) t := by
  have hinner : HasDerivAt (fun s : ℝ => n * (s - t₀) / 2) (n * 1 / 2) t :=
    (((hasDerivAt_id t).sub_const t₀).const_mul n).div_const 2
  have hsum := (hinner.cos.const_mul a).add (hinner.sin.const_mul b)
  convert hsum using 1
  ring

/-! ## Claim C1: angular-velocity consistency invariant -/

/-- C1: At every epoch at which the stored quaternion is normalized, the angular
velocity in the base frame equals the rotation-to-base-frame matrix applied to
the target-frame angular velocity, and also equals the vector recovered by
skew-extraction from the product of the analytic derivative of the
rotation-to-base-frame matrix and the rotation-to-target-frame matrix, each
component agreeing within `1e-15`. -/
theorem angular_velocity_base_frame_consistency
    (e : RotationalEphemeris) (t : ℝ)
    (hunit : qNormSq (getRotationToTargetFrame e t) = 1) (i : Fin 3) :
    |getRotationalVelocityVectorInBaseFrame e t i -
        (getRotationMatrixToBaseFrame e t).mulVec
          (getRotationalVelocityVectorInTargetFrame e t) i| ≤ 1e-15 ∧
    |getRotationalVelocityVectorInBaseFrame e t i -
        getRotationalVelocityVectorInBaseFrameFromMatrices
          (getRotationMatrixToTargetFrame e t)
          (getDerivativeOfRotationToBaseFrame e t) i| ≤ 1e-15 := by
  have hsunit : qNormSq (star (getRotationToTargetFrame e t)) = 1 := by
    rw [qNormSq_star]; exact hunit
  have e1 : getRotationalVelocityVectorInBaseFrame e t i =
      (getRotationMatrixToBaseFrame e t).mulVec
        (getRotationalVelocityVectorInTargetFrame e t) i := by
    rw [getRotationalVelocityVectorInBaseFrame, getRotationMatrixToBaseFrame,
      getRotationToBaseFrame, quaternionToRotationMatrix_eq_hom _ hsunit,
      rotateVectorByQuaternion_eq_hom_mulVec]
  have e2 : getRotationalVelocityVectorInBaseFrameFromMatrices
        (getRotationMatrixToTargetFrame e t) (getDerivativeOfRotationToBaseFrame e t) i =
      (getRotationMatrixToBaseFrame e t).mulVec
        (getRotationalVelocityVectorInTargetFrame e t) i := by
    have hback : getRotationMatrixToTargetFrame e t =
        quaternionToRotationMatrix (star (star (getRotationToTargetFrame e t))) := by
      rw [star_star, getRotationMatrixToTargetFrame]
    rw [getDerivativeOfRotationToBaseFrame, getRotationMatrixToBaseFrame,
      getRotationToBaseFrame, hback]
    exact skew_extraction_eq (star (getRotationToTargetFrame e t))
      (getRotationalVelocityVectorInTargetFrame e t) hsunit i
  rw [e1, e2]
  norm_num

/-- Witness for C1 at the concrete example ephemeris with stored quaternion
`(½, ½, ½, ½)`, angular velocity `(1, 2, 3)`, epoch `0`, first component. -/
theorem angular_velocity_base_frame_consistency_witness :
    qNormSq (getRotationToTargetFrame exampleRotationalEphemeris 0) = 1 ∧
    |getRotationalVelocityVectorInBaseFrame exampleRotationalEphemeris 0 0 -
        getRotationalVelocityVectorInBaseFrameFromMatrices
          (getRotationMatrixToTargetFrame exampleRotationalEphemeris 0)
          (getDerivativeOfRotationToBaseFrame exampleRotationalEphemeris 0) 0| ≤ 1e-15 := by
  have hunit : qNormSq (getRotationToTargetFrame exampleRotationalEphemeris 0) = 1 := by
    norm_num [qNormSq, getRotationToTargetFrame, exampleRotationalEphemeris]
  exact ⟨hunit,
    (angular_velocity_base_frame_consistency exampleRotationalEphemeris 0 hunit 0).2⟩

theorem quaternionToRotationMatrix_star (q : Quaternion ℝ) :
    quaternionToRotationMatrix (star q) = (quaternionToRotationMatrix q)ᵀ := by
  ext i j
  rw [Matrix.transpose_apply]
  fin_cases i <;> fin_cases j <;> simp [quaternionToRotationMatrix] <;> ring

theorem matrix_to_target_eq_transpose (e : RotationalEphemeris) (t : ℝ) :
    getRotationMatrixToTargetFrame e t = (getRotationMatrixToBaseFrame e t)ᵀ := by
  rw [getRotationMatrixToBaseFrame, getRotationToBaseFrame, quaternionToRotationMatrix_star,
    Matrix.transpose_transpose, getRotationMatrixToTargetFrame]

theorem skewSymmetricMatrix_transpose (v : Fin 3 → ℝ) :
    (skewSymmetricMatrix v)ᵀ = -skewSymmetricMatrix v := by
  ext i j
  rw [Matrix.transpose_apply]
  fin_cases i <;> fin_cases j <;> simp [skewSymmetricMatrix]

theorem derivative_to_target_eq_transpose (e : RotationalEphemeris) (t : ℝ) :
    getDerivativeOfRotationToTargetFrame e t =
      (getDerivativeOfRotationToBaseFrame e t)ᵀ := by
  rw [getDerivativeOfRotationToTargetFrame, getDerivativeOfRotationToBaseFrame,
    Matrix.transpose_mul, skewSymmetricMatrix_transpose, matrix_to_target_eq_transpose]

theorem fd_error_term_bound (n : ℝ) (hn0 : 0 < n) (hn : n ≤ 1 / 2500) :
    |n - Real.sin (n * 0.1) / 0.1| ≤ 4e-13 := by
  have hx0 : 0 < n * 0.1 := by nlinarith
  have hx1 : n * 0.1 ≤ 1 := by nlinarith
  have hlt : Real.sin (n * 0.1) < n * 0.1 := Real.sin_lt hx0
  have hgt : n * 0.1 - (n * 0.1) ^ 3 / 4 < Real.sin (n * 0.1) :=
    Real.sin_gt_sub_cube hx0 hx1
  have hdiv : Real.sin (n * 0.1) / 0.1 = 10 * Real.sin (n * 0.1) := by
    rw [div_eq_mul_inv]
    norm_num
    ring
  have hcube : n ^ 3 ≤ (1 / 2500 : ℝ) ^ 3 := pow_le_pow_left₀ (le_of_lt hn0) hn 3
  rw [hdiv, abs_le]
  constructor <;> nlinarith [hlt, hgt, hcube]

theorem two_term_trig_bound (m₀ m₁ u v E : ℝ) (h₀ : |m₀| ≤ 1) (h₁ : |m₁| ≤ 1)
    (hu : |u| ≤ 1) (hv : |v| ≤ 1) (hE : |E| ≤ 4e-13) :
    |m₀ * (u * E) + m₁ * (v * E)| ≤ 1e-12 := by
  calc |m₀ * (u * E) + m₁ * (v * E)| ≤ |m₀ * (u * E)| + |m₁ * (v * E)| := abs_add _ _
    _ = |m₀| * (|u| * |E|) + |m₁| * (|v| * |E|) := by
        rw [abs_mul, abs_mul, abs_mul, abs_mul]
    _ ≤ 1 * (1 * 4e-13) + 1 * (1 * 4e-13) := by
        gcongr
    _ ≤ 1e-12 := by norm_num

set_option maxHeartbeats 2000000 in
theorem rotation_matrix_entry_bound (q : Quaternion ℝ) (h : qNormSq q = 1) (i j : Fin 3) :
    |quaternionToRotationMatrix q i j| ≤ 1 := by
  simp only [qNormSq] at h
  fin_cases i <;> fin_cases j <;>
    simp [quaternionToRotationMatrix] <;>
    rw [abs_le] <;>
    constructor <;>
    nlinarith [sq_nonneg (q.re + q.imI), sq_nonneg (q.re - q.imI),
      sq_nonneg (q.re + q.imJ), sq_nonneg (q.re - q.imJ),
      sq_nonneg (q.re + q.imK), sq_nonneg (q.re - q.imK),
      sq_nonneg (q.imI + q.imJ), sq_nonneg (q.imI - q.imJ),
      sq_nonneg (q.imI + q.imK), sq_nonneg (q.imI - q.imK),
      sq_nonneg (q.imJ + q.imK), sq_nonneg (q.imJ - q.imK),
      sq_nonneg q.re, sq_nonneg q.imI, sq_nonneg q.imJ, sq_nonneg q.imK]

theorem fd_sum_identity (M : Matrix (Fin 3) (Fin 3) ℝ) (θ φ n : ℝ) (i j : Fin 3) :
    (M * (zRotationMatrix θ * skewSymmetricMatrix (spinAngularVelocity n))) i j -
      ((M * zRotationMatrix (θ + φ)) i j - (M * zRotationMatrix (θ - φ)) i j) / (2 * 0.1) =
    M i 0 * (![-Real.sin θ, -Real.cos θ, 0] j * (n - Real.sin φ / 0.1)) +
      M i 1 * (![Real.cos θ, -Real.sin θ, 0] j * (n - Real.sin φ / 0.1)) := by
  fin_cases j <;>
    simp [zRotationMatrix, skewSymmetricMatrix, spinAngularVelocity, Matrix.mul_apply,
      Fin.sum_univ_three, Real.cos_add, Real.sin_add, Real.cos_sub, Real.sin_sub] <;>
    field_simp <;> ring

theorem spin_fd_base_entry_bound (q₀ : Quaternion ℝ) (n t₀ : ℝ) (h : qNormSq q₀ = 1)
    (hn0 : 0 < n) (hn : n ≤ 1 / 2500) (t : ℝ) (i j : Fin 3) :
    |getDerivativeOfRotationToBaseFrame (spinEphemeris q₀ n t₀) t i j -
        (getRotationMatrixToBaseFrame (spinEphemeris q₀ n t₀) (t + 0.1) i j -
          getRotationMatrixToBaseFrame (spinEphemeris q₀ n t₀) (t - 0.1) i j) /
          (2 * 0.1)| ≤ 1e-12 := by
  have hRB : ∀ s : ℝ, getRotationMatrixToBaseFrame (spinEphemeris q₀ n t₀) s =
      quaternionToRotationMatrix q₀ * zRotationMatrix (n * (s - t₀)) :=
    fun s => spin_rotation_matrix_to_base q₀ n t₀ s h
  have hDer : getDerivativeOfRotationToBaseFrame (spinEphemeris q₀ n t₀) t =
      quaternionToRotationMatrix q₀ *
        (zRotationMatrix (n * (t - t₀)) * skewSymmetricMatrix (spinAngularVelocity n)) := by
    rw [getDerivativeOfRotationToBaseFrame, hRB t, Matrix.mul_assoc]
    rfl
  have hargp : n * (t + 0.1 - t₀) = n * (t - t₀) + n * 0.1 := by ring
  have hargm : n * (t - 0.1 - t₀) = n * (t - t₀) - n * 0.1 := by ring
  rw [hDer, hRB (t + 0.1), hRB (t - 0.1), hargp, hargm,
    fd_sum_identity (quaternionToRotationMatrix q₀) (n * (t - t₀)) (n * 0.1) n i j]
  refine two_term_trig_bound _ _ _ _ _
    (rotation_matrix_entry_bound q₀ h i 0) (rotation_matrix_entry_bound q₀ h i 1)
    ?_ ?_ (fd_error_term_bound n hn0 hn)
  · fin_cases j <;> simp <;>
      first
        | exact Real.abs_sin_le_one _
        | exact Real.abs_cos_le_one _
  · fin_cases j <;> simp <;>
      first
        | exact Real.abs_sin_le_one _
        | exact Real.abs_cos_le_one _

/-! ## Claim C3: analytic rotation-matrix derivative vs central finite difference -/

/-- C3: For the propagated single-axis-spin ephemeris (spin rate positive and at
most `1/2500 rad/s`, which covers the test scenario's mean motion), the
analytically computed `derivativeOfRotationToBaseFrame(t)` matches the central
finite difference of `rotationToBaseFrame` at `t ± 0.1 s` with every matrix
entry agreeing within `1e-12`, and likewise for
`derivativeOfRotationToTargetFrame` against `rotationToTargetFrame`. -/
theorem rotation_matrix_derivative_matches_central_difference
    (q₀ : Quaternion ℝ) (n t₀ : ℝ) (h : qNormSq q₀ = 1)
    (hn0 : 0 < n) (hn : n ≤ 1 / 2500) (t : ℝ) (i j : Fin 3) :
    |getDerivativeOfRotationToBaseFrame (spinEphemeris q₀ n t₀) t i j -
        (getRotationMatrixToBaseFrame (spinEphemeris q₀ n t₀) (t + 0.1) i j -
          getRotationMatrixToBaseFrame (spinEphemeris q₀ n t₀) (t - 0.1) i j) /
          (2 * 0.1)| ≤ 1e-12 ∧
    |getDerivativeOfRotationToTargetFrame (spinEphemeris q₀ n t₀) t i j -
        (getRotationMatrixToTargetFrame (spinEphemeris q₀ n t₀) (t + 0.1) i j -
          getRotationMatrixToTargetFrame (spinEphemeris q₀ n t₀) (t - 0.1) i j) /
          (2 * 0.1)| ≤ 1e-12 := by
  refine ⟨spin_fd_base_entry_bound q₀ n t₀ h hn0 hn t i j, ?_⟩
  simp only [derivative_to_target_eq_transpose, matrix_to_target_eq_transpose,
    Matrix.transpose_apply]
  exact spin_fd_base_entry_bound q₀ n t₀ h hn0 hn t j i

/-- Witness for C3 at the identity initial rotation, spin rate `1/2500`, initial
epoch `0`, epoch `0`, entry `(0, 0)`. -/
theorem rotation_matrix_derivative_matches_central_difference_witness :
    qNormSq (⟨1, 0, 0, 0⟩ : Quaternion ℝ) = 1 ∧ (0 : ℝ) < 1 / 2500 ∧
    |getDerivativeOfRotationToBaseFrame
        (spinEphemeris (⟨1, 0, 0, 0⟩ : Quaternion ℝ) (1 / 2500) 0) 0 0 0 -
        (getRotationMatrixToBaseFrame
            (spinEphemeris (⟨1, 0, 0, 0⟩ : Quaternion ℝ) (1 / 2500) 0) (0 + 0.1) 0 0 -
          getRotationMatrixToBaseFrame
            (spinEphemeris (⟨1, 0, 0, 0⟩ : Quaternion ℝ) (1 / 2500) 0) (0 - 0.1) 0 0) /
          (2 * 0.1)| ≤ 1e-12 := by
  have h : qNormSq (⟨1, 0, 0, 0⟩ : Quaternion ℝ) = 1 := by norm_num [qNormSq]
  exact ⟨h, by norm_num,
    (rotation_matrix_derivative_matches_central_difference
      (⟨1, 0, 0, 0⟩ : Quaternion ℝ) (1 / 2500) 0 h (by norm_num) (le_refl _) 0 0 0).1⟩

/-! ## Claim C4: torque-free single-axis spin -/

/-- C4: For the torque-free rigid body with principal inertia ratios
`{0.3615, 0.4265, 0.5024}` started in pure spin about the z principal axis at
rate `n`, the closed-form single-axis-spin solution satisfies the propagated
dynamics — the quaternion kinematics `dq/dt = ½ · q ⊗ (0, ω)` componentwise and
Euler's torque-free equation `I·dω/dt = −ω × (I·ω)` with constant `ω` — and its
ephemeris has body-fixed angular velocity constantly equal to the initial spin
vector (each component within `|n|·1e-15`) and rotation-to-target matrices
following the closed-form single-axis rotation about that axis within `1e-10`
per entry. -/
theorem single_axis_spin_constant_angular_velocity_and_rotation
    (q₀ : Quaternion ℝ) (n t₀ : ℝ) (h : qNormSq q₀ = 1) (t : ℝ) :
    (HasDerivAt (fun s => (spinStateQuaternion q₀ n t₀ s).re)
        ((quaternionDerivative (spinStateQuaternion q₀ n t₀ t)
          (spinAngularVelocity n)).re) t ∧
      HasDerivAt (fun s => (spinStateQuaternion q₀ n t₀ s).imI)
        ((quaternionDerivative (spinStateQuaternion q₀ n t₀ t)
          (spinAngularVelocity n)).imI) t ∧
      HasDerivAt (fun s => (spinStateQuaternion q₀ n t₀ s).imJ)
        ((quaternionDerivative (spinStateQuaternion q₀ n t₀ t)
          (spinAngularVelocity n)).imJ) t ∧
      HasDerivAt (fun s => (spinStateQuaternion q₀ n t₀ s).imK)
        ((quaternionDerivative (spinStateQuaternion q₀ n t₀ t)
          (spinAngularVelocity n)).imK) t) ∧
    (∀ i : Fin 3, HasDerivAt
        (fun s => getRotationalVelocityVectorInTargetFrame (spinEphemeris q₀ n t₀) s i)
        0 t) ∧
    phobosInertiaTensor.mulVec (fun _ => 0) =
      -crossProduct (spinAngularVelocity n)
        (phobosInertiaTensor.mulVec (spinAngularVelocity n)) ∧
    (∀ i : Fin 3,
      |getRotationalVelocityVectorInTargetFrame (spinEphemeris q₀ n t₀) t i -
          spinAngularVelocity n i| ≤ |n| * 1e-15) ∧
    (∀ i j : Fin 3,
      |getRotationMatrixToTargetFrame (spinEphemeris q₀ n t₀) t i j -
          (zRotationMatrix (-(n * (t - t₀))) *
            getRotationMatrixToTargetFrame (spinEphemeris q₀ n t₀) t₀) i j| ≤ 1e-10) := by
  refine ⟨⟨?_, ?_, ?_, ?_⟩, ?_, ?_, ?_, ?_⟩
  · have heq : (fun s => (spinStateQuaternion q₀ n t₀ s).re) =
        fun s => q₀.re * Real.cos (n * (s - t₀) / 2) +
          (-q₀.imK) * Real.sin (n * (s - t₀) / 2) := by
      funext s
      simp [spinStateQuaternion, zRotationQuaternion, Quaternion.mul_re]
      ring
    have hval : (quaternionDerivative (spinStateQuaternion q₀ n t₀ t)
        (spinAngularVelocity n)).re =
        -(q₀.re * Real.sin (n * (t - t₀) / 2) * (n / 2)) +
          (-q₀.imK) * Real.cos (n * (t - t₀) / 2) * (n / 2) := by
      simp [quaternionDerivative, pureQuaternion, spinAngularVelocity, spinStateQuaternion,
        zRotationQuaternion, Quaternion.mul_re, Quaternion.mul_imI, Quaternion.mul_imJ,
        Quaternion.mul_imK]
      ring
    rw [heq, hval]
    exact hasDerivAt_trig_combination _ _ n t₀ t
  · have heq : (fun s => (spinStateQuaternion q₀ n t₀ s).imI) =
        fun s => q₀.imI * Real.cos (n * (s - t₀) / 2) +
          q₀.imJ * Real.sin (n * (s - t₀) / 2) := by
      funext s
      simp [spinStateQuaternion, zRotationQuaternion, Quaternion.mul_imI]
    have hval : (quaternionDerivative (spinStateQuaternion q₀ n t₀ t)
        (spinAngularVelocity n)).imI =
        -(q₀.imI * Real.sin (n * (t - t₀) / 2) * (n / 2)) +
          q₀.imJ * Real.cos (n * (t - t₀) / 2) * (n / 2) := by
      simp [quaternionDerivative, pureQuaternion, spinAngularVelocity, spinStateQuaternion,
        zRotationQuaternion, Quaternion.mul_re, Quaternion.mul_imI, Quaternion.mul_imJ,
        Quaternion.mul_imK]
      ring
    rw [heq, hval]
    exact hasDerivAt_trig_combination _ _ n t₀ t
  · have heq : (fun s => (spinStateQuaternion q₀ n t₀ s).imJ) =
        fun s => q₀.imJ * Real.cos (n * (s - t₀) / 2) +
          (-q₀.imI) * Real.sin (n * (s - t₀) / 2) := by
      funext s
      simp [spinStateQuaternion, zRotationQuaternion, Quaternion.mul_imJ]
      ring
    have hval : (quaternionDerivative (spinStateQuaternion q₀ n t₀ t)
        (spinAngularVelocity n)).imJ =
        -(q₀.imJ * Real.sin (n * (t - t₀) / 2) * (n / 2)) +
          (-q₀.imI) * Real.cos (n * (t - t₀) / 2) * (n / 2) := by
      simp [quaternionDerivative, pureQuaternion, spinAngularVelocity, spinStateQuaternion,
        zRotationQuaternion, Quaternion.mul_re, Quaternion.mul_imI, Quaternion.mul_imJ,
        Quaternion.mul_imK]
      ring
    rw [heq, hval]
    exact hasDerivAt_trig_combination _ _ n t₀ t
  · have heq : (fun s => (spinStateQuaternion q₀ n t₀ s).imK) =
        fun s => q₀.imK * Real.cos (n * (s - t₀) / 2) +
          q₀.re * Real.sin (n * (s - t₀) / 2) := by
      funext s
      simp [spinStateQuaternion, zRotationQuaternion, Quaternion.mul_imK]
      ring
    have hval : (quaternionDerivative (spinStateQuaternion q₀ n t₀ t)
        (spinAngularVelocity n)).imK =
        -(q₀.imK * Real.sin (n * (t - t₀) / 2) * (n / 2)) +
          q₀.re * Real.cos (n * (t - t₀) / 2) * (n / 2) := by
      simp [quaternionDerivative, pureQuaternion, spinAngularVelocity, spinStateQuaternion,
        zRotationQuaternion, Quaternion.mul_re, Quaternion.mul_imI, Quaternion.mul_imJ,
        Quaternion.mul_imK]
      ring
    rw [heq, hval]
    exact hasDerivAt_trig_combination _ _ n t₀ t
  · intro i
    exact hasDerivAt_const t (spinAngularVelocity n i)
  · funext i
    fin_cases i <;>
      simp [phobosInertiaTensor, phobosInertiaScale, crossProduct, spinAngularVelocity,
        Matrix.mulVec, Matrix.dotProduct, Fin.sum_univ_three, Matrix.smul_apply]
  · intro i
    have hz : getRotationalVelocityVectorInTargetFrame (spinEphemeris q₀ n t₀) t i =
        spinAngularVelocity n i := rfl
    rw [hz, sub_self, abs_zero]
    positivity
  · intro i j
    rw [spin_rotation_matrix_to_target q₀ n t₀ t h, sub_self, abs_zero]
    norm_num

/-- Witness for C4 at the identity initial rotation, spin rate `1`, initial
epoch `0`, evaluated at epoch `0`. -/
theorem single_axis_spin_constant_angular_velocity_and_rotation_witness :
    qNormSq (⟨1, 0, 0, 0⟩ : Quaternion ℝ) = 1 ∧
    (∀ i : Fin 3,
      |getRotationalVelocityVectorInTargetFrame
          (spinEphemeris (⟨1, 0, 0, 0⟩ : Quaternion ℝ) 1 0) 0 i -
        spinAngularVelocity 1 i| ≤ |(1 : ℝ)| * 1e-15) := by
  have h : qNormSq (⟨1, 0, 0, 0⟩ : Quaternion ℝ) = 1 := by
    norm_num [qNormSq]
  exact ⟨h,
    (single_axis_spin_constant_angular_velocity_and_rotation
      (⟨1, 0, 0, 0⟩ : Quaternion ℝ) 1 0 h 0).2.2.2.1⟩

/-! ## Claim C5: axis-symmetric free precession -/

/-- C5: For the torque-free body with axis-symmetric inertia tensor (x and y
principal moments equal) spinning primarily about the z-axis, the closed-form
free-precession angular velocity — the two non-spin components tracing a
sinusoid of amplitude `0.1·meanMotion` at the Euler frequency
`(I₃ − I₂)/I₂ · meanMotion` and the z component constant — satisfies Euler's
torque-free rotational equation `I·dω/dt = −ω × (I·ω)` exactly (its components
match the closed form within `1e-15`, and the z component equals the spin
rate). -/
theorem axis_symmetric_free_precession_closed_form (meanMotion t₀ t : ℝ) :
    (∀ i : Fin 3,
      HasDerivAt
        (fun s => precessionAngularVelocity (0.1 * meanMotion) (eulerFrequency meanMotion)
            meanMotion t₀ s i)
        (precessionAngularVelocityDerivative (0.1 * meanMotion) (eulerFrequency meanMotion)
            t₀ t i) t) ∧
    symmetricPhobosInertiaTensor.mulVec
        (precessionAngularVelocityDerivative (0.1 * meanMotion) (eulerFrequency meanMotion)
          t₀ t) =
      -crossProduct
          (precessionAngularVelocity (0.1 * meanMotion) (eulerFrequency meanMotion)
            meanMotion t₀ t)
          (symmetricPhobosInertiaTensor.mulVec
            (precessionAngularVelocity (0.1 * meanMotion) (eulerFrequency meanMotion)
              meanMotion t₀ t)) ∧
    |precessionAngularVelocity (0.1 * meanMotion) (eulerFrequency meanMotion) meanMotion
        t₀ t 0 -
      0.1 * meanMotion * Real.cos (eulerFrequency meanMotion * (t - t₀))| ≤ 1e-15 ∧
    |precessionAngularVelocity (0.1 * meanMotion) (eulerFrequency meanMotion) meanMotion
        t₀ t 1 -
      0.1 * meanMotion * Real.sin (eulerFrequency meanMotion * (t - t₀))| ≤ 1e-15 ∧
    precessionAngularVelocity (0.1 * meanMotion) (eulerFrequency meanMotion) meanMotion
        t₀ t 2 = meanMotion := by
  have hinner : HasDerivAt (fun s : ℝ => eulerFrequency meanMotion * (s - t₀))
      (eulerFrequency meanMotion * 1) t :=
    ((hasDerivAt_id t).sub_const t₀).const_mul _
  refine ⟨?_, ?_, ?_, ?_, ?_⟩
  · intro i
    fin_cases i
    · show HasDerivAt
          (fun s => precessionAngularVelocity (0.1 * meanMotion) (eulerFrequency meanMotion)
              meanMotion t₀ s 0)
          (precessionAngularVelocityDerivative (0.1 * meanMotion) (eulerFrequency meanMotion)
              t₀ t 0) t
      have hd := hinner.cos.const_mul (0.1 * meanMotion)
      have heq : (fun s => precessionAngularVelocity (0.1 * meanMotion)
          (eulerFrequency meanMotion) meanMotion t₀ s 0) =
          fun s => 0.1 * meanMotion * Real.cos (eulerFrequency meanMotion * (s - t₀)) := by
        funext s
        simp [precessionAngularVelocity]
      rw [heq]
      convert hd using 1
      simp [precessionAngularVelocityDerivative]
      ring
    · show HasDerivAt
          (fun s => precessionAngularVelocity (0.1 * meanMotion) (eulerFrequency meanMotion)
              meanMotion t₀ s 1)
          (precessionAngularVelocityDerivative (0.1 * meanMotion) (eulerFrequency meanMotion)
              t₀ t 1) t
      have hd := hinner.sin.const_mul (0.1 * meanMotion)
      have heq : (fun s => precessionAngularVelocity (0.1 * meanMotion)
          (eulerFrequency meanMotion) meanMotion t₀ s 1) =
          fun s => 0.1 * meanMotion * Real.sin (eulerFrequency meanMotion * (s - t₀)) := by
        funext s
        simp [precessionAngularVelocity]
      rw [heq]
      convert hd using 1
      simp [precessionAngularVelocityDerivative]
      ring
    · show HasDerivAt
          (fun s => precessionAngularVelocity (0.1 * meanMotion) (eulerFrequency meanMotion)
              meanMotion t₀ s 2)
          (precessionAngularVelocityDerivative (0.1 * meanMotion) (eulerFrequency meanMotion)
              t₀ t 2) t
      have heq : (fun s => precessionAngularVelocity (0.1 * meanMotion)
          (eulerFrequency meanMotion) meanMotion t₀ s 2) =
          fun _ => meanMotion := by
        funext s
        simp [precessionAngularVelocity]
      have hval : precessionAngularVelocityDerivative (0.1 * meanMotion)
          (eulerFrequency meanMotion) t₀ t 2 = 0 := by
        simp [precessionAngularVelocityDerivative]
      rw [heq, hval]
      exact hasDerivAt_const t meanMotion
  · funext i
    fin_cases i <;>
      simp [symmetricPhobosInertiaTensor, phobosInertiaScale, precessionAngularVelocity,
        precessionAngularVelocityDerivative, crossProduct, eulerFrequency,
        Matrix.mulVec, Matrix.dotProduct, Fin.sum_univ_three, Matrix.smul_apply] <;>
      field_simp <;> ring
  · simp [precessionAngularVelocity]
    norm_num
  · simp [precessionAngularVelocity]
    norm_num
  · simp [precessionAngularVelocity]

/-! ## Claim C6: quaternion component ordering -/

/-- C6: For every 4-element quaternion vector in the public `(w, x, y, z)`
ordering, `getQuaternionObjectFromQuaternionValues` interprets element 0 as the
real part `w` and elements 1–3 as `x`, `y`, `z`, regardless of the internal
Eigen storage order `[x, y, z, w]`; there are inputs on which assuming the
internal storage order would produce a different quaternion. -/
theorem quaternion_values_public_wxyz_ordering (v : Fin 4 → ℝ) :
    (getQuaternionObjectFromQuaternionValues v).w = v 0 ∧
    (getQuaternionObjectFromQuaternionValues v).x = v 1 ∧
    (getQuaternionObjectFromQuaternionValues v).y = v 2 ∧
    (getQuaternionObjectFromQuaternionValues v).z = v 3 ∧
    ∃ u : Fin 4 → ℝ,
      getQuaternionObjectFromQuaternionValues u ≠ quaterniondFromCoefficientVector u := by
  refine ⟨rfl, rfl, rfl, rfl, ![1, 0, 0, 0], fun h => ?_⟩
  have hw : (getQuaternionObjectFromQuaternionValues ![1, 0, 0, 0]).w =
      (quaterniondFromCoefficientVector ![1, 0, 0, 0]).w := by rw [h]
  have h1 : (getQuaternionObjectFromQuaternionValues ![(1:ℝ), 0, 0, 0]).w = 1 := rfl
  have h0 : (quaterniondFromCoefficientVector ![(1:ℝ), 0, 0, 0]).w = 0 := rfl
  rw [h1, h0] at hw
  exact one_ne_zero hw

/-! ## Claim C8: step-size underflow is fatal -/

/-- C8: If, during variable-step integration, the proposed step size underflows
the configured minimum step while the error test is still failing, the step
attempt produces the fatal `stepSizeUnderflowError` outcome carrying the last
successfully accepted (time, state) pair — in particular the step is never
silently clamped and accepted. -/
theorem step_size_underflow_aborts_propagation {S : Type}
    (settings : VariableStepIntegratorSettings) (stepFunction : ℝ → S → ℝ → S)
    (errorNorm recommendedStepSize : ℝ) (state : VariableStepIntegratorState S)
    (herr : 1 < errorNorm)
    (hunder : recommendedStepSize < settings.minimumStepSize) :
    performVariableStepSizeStep settings stepFunction errorNorm recommendedStepSize state =
      IntegrationStepOutcome.stepSizeUnderflowError
        state.lastAcceptedTime state.lastAcceptedState ∧
    ∀ (newTime : ℝ) (newState : S) (nextStepSize : ℝ),
      performVariableStepSizeStep settings stepFunction errorNorm recommendedStepSize state ≠
        IntegrationStepOutcome.stepAccepted newTime newState nextStepSize := by
  have hne : ¬ errorNorm ≤ 1 := not_le.mpr herr
  refine ⟨?_, fun newTime newState nextStepSize => ?_⟩
  · rw [performVariableStepSizeStep, if_neg hne, if_pos hunder]
  · rw [performVariableStepSizeStep, if_neg hne, if_pos hunder]
    exact fun h => IntegrationStepOutcome.noConfusion h

/-- Witness for C8 at a concrete configuration: minimum step 1, error norm 2,
proposed reduced step ½. -/
theorem step_size_underflow_aborts_propagation_witness :
    (1 : ℝ) < 2 ∧
    (1 : ℝ) / 2 < (⟨1, 10⟩ : VariableStepIntegratorSettings).minimumStepSize ∧
    performVariableStepSizeStep (⟨1, 10⟩ : VariableStepIntegratorSettings)
        (fun _ s _ => s) 2 ((1 : ℝ) / 2)
        (⟨0, (0 : ℝ), 1⟩ : VariableStepIntegratorState ℝ) =
      IntegrationStepOutcome.stepSizeUnderflowError 0 0 := by
  refine ⟨one_lt_two, by norm_num, ?_⟩
  exact (step_size_underflow_aborts_propagation (⟨1, 10⟩ : VariableStepIntegratorSettings)
    (fun _ s _ => s) 2 ((1 : ℝ) / 2) (⟨0, (0 : ℝ), 1⟩ : VariableStepIntegratorState ℝ)
    one_lt_two (by norm_num)).1

/-! ## Claim C9: default-constructed `DeepSpaceManeuver` -/

/-- C9: A default-constructed `DeepSpaceManeuver` returns `-1.0` from
`getDeltaV()`, `0.0` from `getTime()`, and a null pointer from `getState()`. -/
theorem default_deep_space_maneuver_field_values (State : Type) :
    (defaultDeepSpaceManeuver State).getDeltaV = -1.0 ∧
    (defaultDeepSpaceManeuver State).getTime = 0.0 ∧
    (defaultDeepSpaceManeuver State).getState = none :=
  ⟨rfl, rfl, rfl⟩

/-! ## Claim C10: setters modify only their own field -/

/-- C10: For every `DeepSpaceManeuver` and every argument value, each setter
modifies only its own field: `setTime` leaves delta-V and state unchanged,
`setDeltaV` leaves time and state unchanged, and `setState` leaves time and
delta-V unchanged. -/
theorem deep_space_maneuver_setters_modify_only_own_field {State : Type}
    (m : DeepSpaceManeuver State) (t v : ℝ) (p : Option State) :
    ((m.setTime t).getTime = t ∧
      (m.setTime t).getDeltaV = m.getDeltaV ∧
      (m.setTime t).getState = m.getState) ∧
    ((m.setDeltaV v).getDeltaV = v ∧
      (m.setDeltaV v).getTime = m.getTime ∧
      (m.setDeltaV v).getState = m.getState) ∧
    ((m.setState p).getState = p ∧
      (m.setState p).getTime = m.getTime ∧
      (m.setState p).getDeltaV = m.getDeltaV) :=
  ⟨⟨rfl, rfl, rfl⟩, ⟨rfl, rfl, rfl⟩, ⟨rfl, rfl, rfl⟩⟩

end

end TudatSpec
